import Mathlib

/-!
# Ring-network token-ring engine: shallow embedding and verification

This file embeds the core of the `ring-network` Go repository in Lean 4:

* `pkg/crc/crc.go` — CRC-32 (IEEE) checksums rendered as decimal strings;
* `pkg/message/message.go` — the frame codec (`CreateDataPacket`,
  `ParseDataPacket`, `VerifyIntegrity`, `SetControl`, `IntroduceError`);
* `internal/queue/queue.go` — the bounded outbound message queue;
* `pkg/network/machine.go` — the ring engine state machine
  (`handleDataPacket`, `handleMessageForThisMachine`,
  `handleReturnedMessage`, `processToken`, `passToken`).

Pure functions are translated directly; the stateful engine is translated
as a function from a machine state and an input event to a new machine
state plus the list of datagrams emitted downstream.  Machine integers are
modelled as `Nat` with explicit `% 2 ^ 32` masking where Go uses `uint32`.
Go's `rand.Float64()` draw (a value in `[0,1)`) is modelled as a rational
parameter `u`, and the stream of `rand.Uint32()` draws as a `List Nat`
parameter; wall-clock timestamps are `Nat` parameters.
-/

namespace RingNet

/-! ## CRC-32 (IEEE), `pkg/crc/crc.go`

Go's `crc32.ChecksumIEEE` is the reflected CRC-32 with polynomial
`0xEDB88320`: the running value starts at `0xFFFFFFFF`, each input byte is
xor-ed into the low bits and followed by eight shift/xor rounds, and the
final value is xor-ed with `0xFFFFFFFF`.  Strings are hashed over their
UTF-8 bytes (`[]byte(data)` in Go). -/

def crc32Poly : Nat := 0xEDB88320

/-- One shift/xor round of the reflected CRC-32. -/
def crc32Round (c : Nat) : Nat :=
  if c % 2 = 1 then Nat.xor (c / 2) crc32Poly else c / 2

/-- Absorb one byte: xor into the accumulator, then eight rounds. -/
def crc32UpdateByte (c b : Nat) : Nat :=
  crc32Round (crc32Round (crc32Round (crc32Round
    (crc32Round (crc32Round (crc32Round (crc32Round (Nat.xor c b))))))))

/-- CRC-32 (IEEE) of a byte sequence. -/
def crc32Bytes (bs : List Nat) : Nat :=
  Nat.xor (bs.foldl crc32UpdateByte 0xFFFFFFFF) 0xFFFFFFFF

/-- UTF-8 encoding of one character (Go's `[]byte(string)` view). -/
def utf8Bytes (c : Char) : List Nat :=
  if c.toNat < 0x80 then [c.toNat]
  else if c.toNat < 0x800 then [0xC0 + c.toNat / 64, 0x80 + c.toNat % 64]
  else if c.toNat < 0x10000 then
    [0xE0 + c.toNat / 4096, 0x80 + (c.toNat / 64) % 64, 0x80 + c.toNat % 64]
  else
    [0xF0 + c.toNat / 262144, 0x80 + (c.toNat / 4096) % 64,
      0x80 + (c.toNat / 64) % 64, 0x80 + c.toNat % 64]

/-- The UTF-8 bytes of a string. -/
def strBytes (s : String) : List Nat :=
  s.data.foldr (fun c acc => utf8Bytes c ++ acc) []

/-- `crc.CalculateCRC32`: CRC-32 (IEEE) of the bytes of a string. -/
def CalculateCRC32 (data : String) : Nat :=
  crc32Bytes (strBytes data)

/-! ### Decimal rendering and parsing

`strconv.FormatUint(v, 10)` renders a value in decimal ASCII;
`strconv.ParseUint(s, 10, 32)` accepts a non-empty all-digit string whose
value fits in 32 bits and errors otherwise (no sign, no other characters,
out-of-range is an error).  The `Option` result models the Go error. -/

def digitChar (d : Nat) : Char := Char.ofNat (48 + d)

/-- Decimal digits, least significant first; structural recursion on a
fuel argument (`fuel ≥ n` suffices, and `natDigitsRev` passes `n`). -/
def natDigitsRevAux : Nat → Nat → List Char
  | 0, n => [digitChar n]
  | fuel + 1, n =>
    if n < 10 then [digitChar n]
    else digitChar (n % 10) :: natDigitsRevAux fuel (n / 10)

/-- Decimal digits of `n`, least significant first. -/
def natDigitsRev (n : Nat) : List Char := natDigitsRevAux n n

/-- `strconv.FormatUint(n, 10)`: decimal ASCII rendering. -/
def formatUint (n : Nat) : String :=
  String.mk (natDigitsRev n).reverse

def digitOfChar (c : Char) : Option Nat :=
  if 48 ≤ c.toNat ∧ c.toNat ≤ 57 then some (c.toNat - 48) else none

def parseDecAux : List Char → Nat → Option Nat
  | [], acc => some acc
  | c :: cs, acc =>
    match digitOfChar c with
    | some d => parseDecAux cs (acc * 10 + d)
    | none => none

/-- `strconv.ParseUint(s, 10, 32)`: `none` models a non-nil Go error
(empty input, a non-digit character, or a value not fitting in 32 bits). -/
def ParseUint32 (s : String) : Option Nat :=
  match s.data with
  | [] => none
  | cs =>
    match parseDecAux cs 0 with
    | some n => if n < 2 ^ 32 then some n else none
    | none => none

/-- `crc.CalculateCRC32String`. -/
def CalculateCRC32String (data : String) : String :=
  formatUint (CalculateCRC32 data)

/-- `crc.VerifyCRC32`. -/
def VerifyCRC32 (data : String) (expectedCRC : Nat) : Bool :=
  CalculateCRC32 data == expectedCRC

/-- `crc.VerifyCRC32String`: parse the expected value, `false` on error. -/
def VerifyCRC32String (data expectedCRCStr : String) : Bool :=
  match ParseUint32 expectedCRCStr with
  | none => false
  | some expectedCRC => VerifyCRC32 data expectedCRC

/-- `crc.CreateDataForCRC`. -/
def CreateDataForCRC (origin destination message : String) : String :=
  origin ++ ":" ++ destination ++ ":" ++ message

/-! ## Frame codec, `pkg/message/message.go` -/

def TokenPacket : String := "1000"
def DataPacket : String := "2000"

def ControlMachineNotExists : String := "maquinanaoexiste"
def ControlACK : String := "ACK"
def ControlNAK : String := "NAK"

/-- `message.QueuedMessage`.  The Go `time.Time` stamp is modelled as a
`Nat` supplied by the caller; `Retries` starts at 0 and only grows. -/
structure QueuedMessage where
  Destination : String
  Content : String
  Timestamp : Nat
  Retries : Nat
deriving Repr, DecidableEq

/-- `message.NewQueuedMessage` (the `now` argument models `time.Now()`). -/
def NewQueuedMessage (destination content : String) (now : Nat) : QueuedMessage :=
  { Destination := destination, Content := content, Timestamp := now, Retries := 0 }

/-- `message.DataMessage`. -/
structure DataMessage where
  «Type» : String
  Origin : String
  Destination : String
  Control : String
  CRC : String
  Message : String
  RawData : String
deriving Repr, DecidableEq

/-- The `fmt.Sprintf("%s;%s:%s:%s:%s:%s", ...)` wire layout of a data
frame, shared by `CreateDataPacket`, `SetControl` and `IntroduceError`. -/
def rawFormat (origin destination control crcValue msg : String) : String :=
  DataPacket ++ ";" ++ origin ++ ":" ++ destination ++ ":" ++ control ++ ":"
    ++ crcValue ++ ":" ++ msg

/-- `message.CreateDataPacket`. -/
def CreateDataPacket (origin destination msg : String) : DataMessage :=
  let crcValue := CalculateCRC32String (CreateDataForCRC origin destination msg)
  let control := ControlMachineNotExists
  { «Type» := DataPacket
    Origin := origin
    Destination := destination
    Control := control
    CRC := crcValue
    Message := msg
    RawData := rawFormat origin destination control crcValue msg }

/-- `strings.SplitN(s, ":", k + 1)` on a character list: split at the
first `k` colons, the last piece absorbing everything that remains. -/
def splitColonAux : List Char → List Char → Nat → List (List Char)
  | [], acc, _ => [acc.reverse]
  | c :: rest, acc, k =>
    if c = ':' ∧ 0 < k then acc.reverse :: splitColonAux rest [] (k - 1)
    else splitColonAux rest (c :: acc) k

/-- `strings.SplitN(content, ":", 5)`. -/
def splitColon5 (content : List Char) : List (List Char) :=
  splitColonAux content [] 4

/-- `message.ParseDataPacket`: `none` models the Go error (not a data
packet, or not exactly five `:`-separated fields).  `strings.HasPrefix
(data, "2000;")` is the check that the first five characters are `2000;`,
and `strings.TrimPrefix` then drops them. -/
def ParseDataPacket (data : String) : Option DataMessage :=
  if data.data.take 5 = ("2000;").data then
    match splitColon5 (data.data.drop 5) with
    | [o, d, c, crcValue, msg] =>
      some { «Type» := DataPacket
             Origin := String.mk o
             Destination := String.mk d
             Control := String.mk c
             CRC := String.mk crcValue
             Message := String.mk msg
             RawData := data }
    | _ => none
  else none

/-- The whitespace predicate of `strings.TrimSpace` (the ASCII cases;
Go's `unicode.IsSpace` also covers two Latin-1 code points that cannot
occur in the token literal). -/
def isSpaceChar (c : Char) : Bool :=
  c = ' ' ∨ c = '\t' ∨ c = '\n' ∨ c = Char.ofNat 11 ∨ c = Char.ofNat 12 ∨ c = '\r'

/-- `strings.TrimSpace`: drop whitespace from both ends. -/
def trimSpace (s : String) : String :=
  String.mk (((s.data.dropWhile isSpaceChar).reverse.dropWhile isSpaceChar).reverse)

/-- `message.IsTokenPacket`. -/
def IsTokenPacket (data : String) : Bool :=
  trimSpace data == TokenPacket

/-- `message.CreateTokenPacket`. -/
def CreateTokenPacket : String := TokenPacket

/-- `message.DataMessage.VerifyIntegrity`. -/
def VerifyIntegrity (dm : DataMessage) : Bool :=
  VerifyCRC32String (CreateDataForCRC dm.Origin dm.Destination dm.Message) dm.CRC

/-- `message.DataMessage.SetControl` (functional version of the in-place
update: only `Control` and `RawData` change). -/
def SetControl (dm : DataMessage) (control : String) : DataMessage :=
  { dm with
    Control := control
    RawData := rawFormat dm.Origin dm.Destination control dm.CRC dm.Message }

/-- `message.DataMessage.IntroduceError`.  `rand.Float64()` is modelled by
the rational `u ∈ [0,1)`; the successive `rand.Uint32()` draws by `draws`.
The Go retry loop keeps drawing until the corrupted CRC string differs from
the original; `List.find?` consumes `draws` the same way, and `none`
models the (probability-zero) event that the supplied draws never differ.
The `Bool` is the Go return value (`true` iff an error was introduced). -/
def IntroduceError (dm : DataMessage) (probability u : ℚ) (draws : List Nat) :
    Option (DataMessage × Bool) :=
  if u < probability then
    match draws.find? (fun d => formatUint d != dm.CRC) with
    | none => none
    | some d =>
      some ({ dm with
              CRC := formatUint d
              RawData := rawFormat dm.Origin dm.Destination dm.Control
                (formatUint d) dm.Message }, true)
  else
    some (dm, false)

/-! ## Outbound queue, `internal/queue/queue.go`

The Go queue is a mutex-guarded slice; the mutex only serialises the
operations, so the functional translation is a plain list with the same
operations.  `Enqueue` returns `none` for the full-queue error (the Go
error return), leaving the queue untouched. -/

structure MessageQueue where
  messages : List QueuedMessage
  maxSize : Nat
deriving Repr, DecidableEq

/-- `queue.NewMessageQueue`. -/
def NewMessageQueue (maxSize : Nat) : MessageQueue :=
  { messages := [], maxSize := maxSize }

/-- `queue.Enqueue`: `none` is the "fila cheia" error. -/
def Enqueue (mq : MessageQueue) (destination content : String) (now : Nat) :
    Option MessageQueue :=
  if mq.maxSize ≤ mq.messages.length then none
  else some { mq with messages := mq.messages ++ [NewQueuedMessage destination content now] }

/-- `queue.Dequeue`: the removed head (or `none`) and the rest. -/
def Dequeue (mq : MessageQueue) : Option QueuedMessage × MessageQueue :=
  match mq.messages with
  | [] => (none, mq)
  | msg :: rest => (some msg, { mq with messages := rest })

/-- `queue.Peek`. -/
def Peek (mq : MessageQueue) : Option QueuedMessage :=
  mq.messages.head?

/-- `queue.Size`. -/
def Size (mq : MessageQueue) : Nat := mq.messages.length

/-- `queue.IsEmpty`. -/
def IsEmpty (mq : MessageQueue) : Bool := Size mq == 0

/-- `queue.IncrementRetries`: bump the head's retry count, no-op when empty. -/
def IncrementRetries (mq : MessageQueue) : MessageQueue :=
  match mq.messages with
  | [] => mq
  | msg :: rest => { mq with messages := { msg with Retries := msg.Retries + 1 } :: rest }

/-- `queue.RemoveFirstMessage` (alias for `Dequeue` in the source). -/
def RemoveFirstMessage (mq : MessageQueue) : Option QueuedMessage × MessageQueue :=
  Dequeue mq

/-! ## Ring engine, `pkg/network/machine.go`

The engine state keeps exactly the fields the protocol transitions read
and write: the node name (from config), the error-injection probability,
the queue, the token/awaiting flags, the in-flight frame, and the status
counters mutated by the handlers (`TokensProcessed`, `MessagesSent`,
`MessagesReceived`, `ErrorsDetected`).  The UDP socket, mutex, log
statements and timers carry no protocol state; each handler returns the
new state together with the list of datagrams handed to `sendPacket`, in
send order (a token is the literal `"1000"`, a data frame its
`RawData`). -/

structure MachineState where
  machineName : String
  errorProbability : ℚ
  queue : MessageQueue
  hasToken : Bool
  waitingForData : Bool
  currentDataMsg : Option DataMessage
  tokensProcessed : Nat
  messagesSent : Nat
  messagesReceived : Nat
  errorsDetected : Nat
deriving Repr, DecidableEq

/-- `network.NewMachine`: empty queue of capacity 10, no token, not
waiting, `errorProbability = 0.1` (the float literal is the rational
`1/10`), all counters zero. -/
def NewMachine (name : String) : MachineState :=
  { machineName := name
    errorProbability := mkRat 1 10
    queue := NewMessageQueue 10
    hasToken := false
    waitingForData := false
    currentDataMsg := none
    tokensProcessed := 0
    messagesSent := 0
    messagesReceived := 0
    errorsDetected := 0 }

/-- `Machine.passToken`: clear the token flag and emit a token frame. -/
def passToken (m : MachineState) : MachineState × List String :=
  ({ m with hasToken := false }, [CreateTokenPacket])

/-- `Machine.forwardMessage`: re-emit the frame unchanged. -/
def forwardMessage (m : MachineState) (dm : DataMessage) : MachineState × List String :=
  (m, [dm.RawData])

/-- `Machine.handleToken`: take the token and bump `TokensProcessed`.
(The token-hold timer it arms is modelled as the separate
`Event.holdExpire` event delivered later.) -/
def handleToken (m : MachineState) : MachineState :=
  { m with hasToken := true, tokensProcessed := m.tokensProcessed + 1 }

/-- `Machine.handleMessageForThisMachine`: frames addressed to this node
or broadcast.  `MessagesReceived` is incremented unconditionally on entry,
exactly as in the source. -/
def handleMessageForThisMachine (m : MachineState) (dm : DataMessage) :
    MachineState × List String :=
  let m := { m with messagesReceived := m.messagesReceived + 1 }
  if dm.Destination = "TODOS" then
    if dm.Origin = m.machineName then
      passToken { m with
        waitingForData := false
        currentDataMsg := none
        queue := (RemoveFirstMessage m.queue).2 }
    else
      forwardMessage m dm
  else
    if VerifyIntegrity dm then
      (m, [(SetControl dm ControlACK).RawData])
    else
      ({ m with errorsDetected := m.errorsDetected + 1 },
        [(SetControl dm ControlNAK).RawData])

/-- `Machine.handleReturnedMessage`: a frame whose origin is this node has
circulated back. -/
def handleReturnedMessage (m : MachineState) (dm : DataMessage) :
    MachineState × List String :=
  if dm.Destination = "TODOS" then
    passToken { m with
      queue := (RemoveFirstMessage m.queue).2
      waitingForData := false
      currentDataMsg := none }
  else if m.waitingForData = false ∨ m.currentDataMsg = none then
    (m, [])
  else
    let m := { m with waitingForData := false, currentDataMsg := none }
    let m :=
      if dm.Control = ControlACK then
        { m with queue := (RemoveFirstMessage m.queue).2 }
      else if dm.Control = ControlNAK then
        { m with queue := IncrementRetries m.queue }
      else if dm.Control = ControlMachineNotExists then
        { m with queue := (RemoveFirstMessage m.queue).2 }
      else m
    passToken m

/-- `Machine.handleDataPacket`: dispatch on destination and origin. -/
def handleDataPacket (m : MachineState) (dm : DataMessage) :
    MachineState × List String :=
  if dm.Destination = m.machineName then
    handleMessageForThisMachine m dm
  else if dm.Destination = "TODOS" then
    handleMessageForThisMachine m dm
  else if dm.Origin = m.machineName then
    handleReturnedMessage m dm
  else
    forwardMessage m dm

/-- `Machine.processToken` (the token-hold timer callback): transmit the
queue head, or pass the token when the queue is empty.  Error injection is
applied only to unicast frames; `u` and `draws` feed `IntroduceError`, and
`none` propagates its divergence case. -/
def processToken (m : MachineState) (u : ℚ) (draws : List Nat) :
    Option (MachineState × List String) :=
  if m.hasToken = false then some (m, [])
  else
    match Peek m.queue with
    | some queuedMsg =>
      let dataMsg := CreateDataPacket m.machineName queuedMsg.Destination queuedMsg.Content
      let injected :=
        if queuedMsg.Destination = "TODOS" then some (dataMsg, false)
        else IntroduceError dataMsg m.errorProbability u draws
      match injected with
      | none => none
      | some (dataMsg, _) =>
        some ({ m with
                waitingForData := true
                currentDataMsg := some dataMsg
                messagesSent := m.messagesSent + 1 }, [dataMsg.RawData])
    | none => some (passToken m)

/-- `Machine.handleReceivedData`: classify an inbound datagram; parse
errors are dropped. -/
def handleReceivedData (m : MachineState) (data : String) : MachineState × List String :=
  if IsTokenPacket data then (handleToken m, [])
  else
    match ParseDataPacket data with
    | none => (m, [])
    | some dataMsg => handleDataPacket m dataMsg

/-- One engine event: an operator enqueue (`Machine.QueueMessage`; the
full-queue error leaves the state unchanged), an inbound datagram, or the
token-hold timer firing. -/
inductive Event where
  | enqueueMsg (destination content : String) (now : Nat)
  | recv (data : String)
  | holdExpire (u : ℚ) (draws : List Nat)

/-- One engine transition; `none` only for the divergence case of
`IntroduceError`. -/
def step (m : MachineState) : Event → Option (MachineState × List String)
  | .enqueueMsg destination content now =>
    some (match Enqueue m.queue destination content now with
          | none => m
          | some q => { m with queue := q }, [])
  | .recv data => some (handleReceivedData m data)
  | .holdExpire u draws => processToken m u draws

/-- States reachable from `NewMachine name` by engine transitions. -/
inductive Reachable (name : String) : MachineState → Prop where
  | init : Reachable name (NewMachine name)
  | next {m m' : MachineState} {e : Event} {out : List String} :
      Reachable name m → step m e = some (m', out) → Reachable name m'

/-! ## Helper lemmas: decimal rendering and parsing -/

theorem digitOfChar_digitChar : ∀ d < 10, digitOfChar (digitChar d) = some d := by
  decide

theorem digitChar_bounds : ∀ d < 10, 48 ≤ (digitChar d).toNat ∧ (digitChar d).toNat ≤ 57 := by
  decide

theorem natDigitsRevAux_digits : ∀ (fuel n : Nat), n ≤ fuel →
    ∀ c ∈ natDigitsRevAux fuel n, 48 ≤ c.toNat ∧ c.toNat ≤ 57 := by
  intro fuel
  induction fuel with
  | zero =>
    intro n hn c hc
    interval_cases n
    simp only [natDigitsRevAux, List.mem_singleton] at hc
    subst hc
    exact digitChar_bounds 0 (by omega)
  | succ fuel ih =>
    intro n hn c hc
    simp only [natDigitsRevAux] at hc
    split at hc
    · next h =>
      simp only [List.mem_singleton] at hc
      subst hc
      exact digitChar_bounds n h
    · next h =>
      rcases List.mem_cons.mp hc with hc | hc
      · subst hc
        exact digitChar_bounds (n % 10) (Nat.mod_lt _ (by omega))
      · exact ih (n / 10) (by omega) c hc

theorem natDigitsRev_digits (n : Nat) :
    ∀ c ∈ natDigitsRev n, 48 ≤ c.toNat ∧ c.toNat ≤ 57 :=
  natDigitsRevAux_digits n n (Nat.le_refl n)

theorem natDigitsRev_ne_nil (n : Nat) : natDigitsRev n ≠ [] := by
  unfold natDigitsRev
  cases n with
  | zero => simp [natDigitsRevAux]
  | succ k =>
    simp only [natDigitsRevAux]
    split <;> simp

theorem colon_not_mem_natDigitsRev (n : Nat) : ':' ∉ natDigitsRev n := by
  intro h
  have h2 := natDigitsRev_digits n ':' h
  have h3 : (':' : Char).toNat = 58 := by decide
  rw [h3] at h2
  omega

theorem parseDecAux_append (xs ys : List Char) (acc : Nat) :
    parseDecAux (xs ++ ys) acc =
      match parseDecAux xs acc with
      | some a => parseDecAux ys a
      | none => none := by
  induction xs generalizing acc with
  | nil => simp [parseDecAux]
  | cons c cs ih =>
    simp only [List.cons_append, parseDecAux]
    cases digitOfChar c with
    | none => simp
    | some d => simp [ih]

theorem parseDecAux_digitsRevAux : ∀ (fuel n : Nat), n ≤ fuel → ∀ acc : Nat,
    parseDecAux (natDigitsRevAux fuel n).reverse acc =
      some (acc * 10 ^ (natDigitsRevAux fuel n).length + n) := by
  intro fuel
  induction fuel with
  | zero =>
    intro n hn acc
    interval_cases n
    simp [natDigitsRevAux, parseDecAux, digitOfChar_digitChar 0 (by omega)]
  | succ fuel ih =>
    intro n hn acc
    by_cases h : n < 10
    · simp only [natDigitsRevAux, if_pos h, List.reverse_singleton,
        List.length_singleton, parseDecAux, digitOfChar_digitChar n h]
      norm_num
    · simp only [natDigitsRevAux, if_neg h, List.reverse_cons, List.length_cons]
      rw [parseDecAux_append, ih (n / 10) (by omega) acc]
      have hd : digitOfChar (digitChar (n % 10)) = some (n % 10) :=
        digitOfChar_digitChar _ (Nat.mod_lt _ (by omega))
      simp only [parseDecAux, hd]
      congr 1
      have hmod : 10 * (n / 10) + n % 10 = n := Nat.div_add_mod n 10
      have hstep : (acc * 10 ^ (natDigitsRevAux fuel (n / 10)).length + n / 10) * 10
            + n % 10
          = acc * (10 ^ (natDigitsRevAux fuel (n / 10)).length * 10)
            + (10 * (n / 10) + n % 10) := by
        ring
      rw [hstep, hmod, pow_succ]

theorem parseDecAux_digitsRev (n : Nat) : ∀ acc : Nat,
    parseDecAux (natDigitsRev n).reverse acc =
      some (acc * 10 ^ (natDigitsRev n).length + n) :=
  parseDecAux_digitsRevAux n n (Nat.le_refl n)

theorem ParseUint32_formatUint {n : Nat} (h : n < 2 ^ 32) :
    ParseUint32 (formatUint n) = some n := by
  have hne : (natDigitsRev n).reverse ≠ [] := by
    simp [natDigitsRev_ne_nil n]
  have hparse := parseDecAux_digitsRev n 0
  cases hrev : (natDigitsRev n).reverse with
  | nil => exact absurd hrev hne
  | cons c cs =>
    rw [hrev] at hparse
    simp only [ParseUint32, formatUint, hrev, hparse, Nat.zero_mul, Nat.zero_add]
    split
    · rfl
    · omega

/-! ## Helper lemmas: CRC-32 stays below `2 ^ 32` -/

theorem crc32Round_lt {c : Nat} (h : c < 2 ^ 32) : crc32Round c < 2 ^ 32 := by
  unfold crc32Round
  split
  · exact Nat.xor_lt_two_pow (by omega) (by norm_num [crc32Poly])
  · omega

theorem crc32UpdateByte_lt {c b : Nat} (hc : c < 2 ^ 32) (hb : b < 2 ^ 32) :
    crc32UpdateByte c b < 2 ^ 32 := by
  unfold crc32UpdateByte
  have h0 : Nat.xor c b < 2 ^ 32 := Nat.xor_lt_two_pow hc hb
  exact crc32Round_lt (crc32Round_lt (crc32Round_lt (crc32Round_lt
    (crc32Round_lt (crc32Round_lt (crc32Round_lt (crc32Round_lt h0)))))))

theorem crc32Bytes_lt (bs : List Nat) (hb : ∀ b ∈ bs, b < 2 ^ 32) :
    crc32Bytes bs < 2 ^ 32 := by
  unfold crc32Bytes
  have key : ∀ (l : List Nat), (∀ b ∈ l, b < 2 ^ 32) → ∀ (a : Nat), a < 2 ^ 32 →
      l.foldl crc32UpdateByte a < 2 ^ 32 := by
    intro l
    induction l with
    | nil => intro _ a ha; simpa using ha
    | cons x xs ih =>
      intro hl a ha
      simp only [List.foldl_cons]
      exact ih (fun b hbmem => hl b (List.mem_cons_of_mem _ hbmem))
        _ (crc32UpdateByte_lt ha (hl x (List.mem_cons_self _ _)))
  exact Nat.xor_lt_two_pow (key bs hb 0xFFFFFFFF (by norm_num)) (by norm_num)

theorem utf8Bytes_lt (c : Char) : ∀ b ∈ utf8Bytes c, b < 2 ^ 32 := by
  have hc : c.toNat < 2 ^ 32 := UInt32.toNat_lt c.val
  intro b hb
  unfold utf8Bytes at hb
  split at hb
  · simp only [List.mem_singleton] at hb
    omega
  · split at hb
    · simp only [List.mem_cons, List.mem_singleton, List.not_mem_nil, or_false] at hb
      rcases hb with hb | hb <;> subst hb <;> omega
    · split at hb
      · simp only [List.mem_cons, List.mem_singleton, List.not_mem_nil, or_false] at hb
        rcases hb with hb | hb | hb <;> subst hb <;> omega
      · simp only [List.mem_cons, List.mem_singleton, List.not_mem_nil, or_false] at hb
        rcases hb with hb | hb | hb | hb <;> subst hb <;> omega

theorem strBytes_lt (s : String) : ∀ b ∈ strBytes s, b < 2 ^ 32 := by
  unfold strBytes
  induction s.data with
  | nil => simp
  | cons c cs ih =>
    intro b hb
    simp only [List.foldr_cons, List.mem_append] at hb
    rcases hb with hb | hb
    · exact utf8Bytes_lt c b hb
    · exact ih b hb

theorem CalculateCRC32_lt (s : String) : CalculateCRC32 s < 2 ^ 32 :=
  crc32Bytes_lt _ (strBytes_lt s)

/-! ## Helper lemmas: codec -/

theorem colon_not_mem_formatUint (n : Nat) : ':' ∉ (formatUint n).data := by
  intro h
  exact colon_not_mem_natDigitsRev n (List.mem_reverse.mp h)

theorem VerifyIntegrity_CreateDataPacket (o d p : String) :
    VerifyIntegrity (CreateDataPacket o d p) = true := by
  show VerifyCRC32String (CreateDataForCRC o d p)
    (CalculateCRC32String (CreateDataForCRC o d p)) = true
  unfold VerifyCRC32String CalculateCRC32String
  rw [ParseUint32_formatUint (CalculateCRC32_lt _)]
  simp [VerifyCRC32]

theorem splitColonAux_zero (xs acc : List Char) :
    splitColonAux xs acc 0 = [acc.reverse ++ xs] := by
  induction xs generalizing acc with
  | nil => simp [splitColonAux]
  | cons c rest ih =>
    simp only [splitColonAux, Nat.lt_irrefl, and_false, if_false]
    rw [ih]
    simp

theorem splitColonAux_append (xs : List Char) (h : ':' ∉ xs) (rest acc : List Char)
    (k : Nat) :
    splitColonAux (xs ++ ':' :: rest) acc (k + 1) =
      (acc.reverse ++ xs) :: splitColonAux rest [] k := by
  induction xs generalizing acc with
  | nil => simp [splitColonAux]
  | cons c xs' ih =>
    have hc : c ≠ ':' := fun hceq => h (hceq ▸ List.mem_cons_self c xs')
    simp only [List.cons_append, splitColonAux, hc, false_and, if_false, List.append_eq]
    rw [ih (fun hmem => h (List.mem_cons_of_mem c hmem))]
    simp

theorem splitColon5_parts (a b c d e : List Char)
    (ha : ':' ∉ a) (hb : ':' ∉ b) (hc : ':' ∉ c) (hd : ':' ∉ d) :
    splitColon5 (a ++ ':' :: (b ++ ':' :: (c ++ ':' :: (d ++ ':' :: e)))) =
      [a, b, c, d, e] := by
  unfold splitColon5
  rw [splitColonAux_append a ha, splitColonAux_append b hb,
    splitColonAux_append c hc, splitColonAux_append d hd, splitColonAux_zero]
  simp

theorem rawFormat_data (o dst ctl crc p : String) :
    (rawFormat o dst ctl crc p).data =
      ("2000;").data ++ (o.data ++ ':' :: (dst.data ++ ':' :: (ctl.data ++ ':'
        :: (crc.data ++ ':' :: p.data)))) := by
  unfold rawFormat DataPacket
  simp only [String.data_append]
  simp

theorem ParseDataPacket_rawFormat (o dst ctl crc p : String)
    (ho : ':' ∉ o.data) (hdst : ':' ∉ dst.data) (hctl : ':' ∉ ctl.data)
    (hcrc : ':' ∉ crc.data) :
    ParseDataPacket (rawFormat o dst ctl crc p) =
      some { «Type» := DataPacket, Origin := o, Destination := dst, Control := ctl,
             CRC := crc, Message := p, RawData := rawFormat o dst ctl crc p } := by
  have hlen : (("2000;").data).length = 5 := rfl
  unfold ParseDataPacket
  rw [rawFormat_data]
  rw [show (5 : Nat) = (("2000;").data).length from rfl, List.take_left, List.drop_left]
  rw [if_pos rfl, splitColon5_parts _ _ _ _ _ ho hdst hctl hcrc]

/-! ## Claims about the codec -/

/-- C5: for all strings `origin`, `destination`, `payload`, the data frame
built by `CreateDataPacket` carries as checksum field the decimal
rendering of the CRC-32 (IEEE) of `origin ++ ":" ++ destination ++ ":" ++
payload`, and recomputing the checksum over the frame's fields
(`VerifyIntegrity`) matches the stored field — for any control value,
i.e. also after `SetControl`. -/
theorem createDataPacket_verifies (origin destination payload ctrl : String) :
    (CreateDataPacket origin destination payload).CRC =
      formatUint (CalculateCRC32 (origin ++ ":" ++ destination ++ ":" ++ payload)) ∧
    VerifyIntegrity (CreateDataPacket origin destination payload) = true ∧
    VerifyIntegrity (SetControl (CreateDataPacket origin destination payload) ctrl)
      = true := by
  refine ⟨rfl, VerifyIntegrity_CreateDataPacket _ _ _, ?_⟩
  exact VerifyIntegrity_CreateDataPacket origin destination payload

/-- C6: `SetControl` leaves the checksum field unchanged, and therefore
verification is unaffected by any control rewrite: the checksum does not
cover the control field. -/
theorem setControl_preserves_verify (dm : DataMessage) (c : String) :
    (SetControl dm c).CRC = dm.CRC ∧
    VerifyIntegrity (SetControl dm c) = VerifyIntegrity dm :=
  ⟨rfl, rfl⟩

/-- C7: for colon-free origin and destination, a control value among
`maquinanaoexiste`/`ACK`/`NAK`, and an arbitrary payload (which may
contain `:`), decoding the encoded wire string yields a frame field-equal
to the encoded one — the left-to-right 5-limited split lets the fifth
field absorb every `:` of the payload. -/
theorem parse_create_round_trip (o d p c : String)
    (ho : ':' ∉ o.data) (hd : ':' ∉ d.data)
    (hc : c = ControlMachineNotExists ∨ c = ControlACK ∨ c = ControlNAK) :
    ParseDataPacket (CreateDataPacket o d p).RawData = some (CreateDataPacket o d p) ∧
    ParseDataPacket (SetControl (CreateDataPacket o d p) c).RawData =
      some (SetControl (CreateDataPacket o d p) c) := by
  have hcrc : ':' ∉ (CalculateCRC32String (CreateDataForCRC o d p)).data :=
    colon_not_mem_formatUint _
  have hnotex : ':' ∉ (ControlMachineNotExists).data := by decide
  have hc' : ':' ∉ c.data := by
    rcases hc with h | h | h <;> subst h <;> decide
  exact ⟨ParseDataPacket_rawFormat o d ControlMachineNotExists _ p ho hd hnotex hcrc,
    ParseDataPacket_rawFormat o d c _ p ho hd hc' hcrc⟩

/-- Witness for C7 at `o = "Alice"`, `d = "Bob"`, `p = "h:i"` (payload
with a colon), `c = "ACK"`. -/
theorem parse_create_round_trip_witness :
    (':' ∉ ("Alice" : String).data) ∧ (':' ∉ ("Bob" : String).data) ∧
    ParseDataPacket (SetControl (CreateDataPacket "Alice" "Bob" "h:i") "ACK").RawData =
      some (SetControl (CreateDataPacket "Alice" "Bob" "h:i") "ACK") :=
  ⟨by decide, by decide,
    (parse_create_round_trip "Alice" "Bob" "h:i" "ACK" (by decide) (by decide)
      (Or.inr (Or.inl rfl))).2⟩

/-- C10: a data frame whose checksum field is not the decimal form of an
unsigned value below `2 ^ 32` (non-numeric, signed, or out of range) makes
`VerifyIntegrity` return `false` totally — the parse failure of
`strconv.ParseUint` is absorbed, never surfaced. -/
theorem verifyIntegrity_false_on_unparsable_crc (dm : DataMessage)
    (h : ParseUint32 dm.CRC = none) : VerifyIntegrity dm = false := by
  unfold VerifyIntegrity VerifyCRC32String
  rw [h]

/-- Witness for C10 at a frame with the non-numeric checksum field
`"abc"`. -/
theorem verifyIntegrity_false_on_unparsable_crc_witness :
    ParseUint32 (DataMessage.mk "2000" "Alice" "Bob" "ACK" "abc" "hi" "raw").CRC
      = none ∧
    VerifyIntegrity (DataMessage.mk "2000" "Alice" "Bob" "ACK" "abc" "hi" "raw")
      = false :=
  ⟨by decide, verifyIntegrity_false_on_unparsable_crc _ (by decide)⟩

/-! ## Claim about the queue bound -/

/-- One operator-visible queue operation. -/
inductive QOp where
  | enq (destination content : String) (now : Nat)
  | deq

/-- Apply one operation; a failed enqueue (full-queue error) leaves the
queue unchanged, as the Go `Enqueue` returns before touching the slice. -/
def applyQOp (mq : MessageQueue) : QOp → MessageQueue
  | .enq destination content now =>
    match Enqueue mq destination content now with
    | none => mq
    | some q => q
  | .deq => (Dequeue mq).2

/-- Run a sequence of operations on the queue `NewMachine` creates
(`NewMessageQueue 10`). -/
def runQOps (ops : List QOp) : MessageQueue :=
  ops.foldl applyQOp (NewMessageQueue 10)

theorem Enqueue_eq_none_iff (mq : MessageQueue) (d c : String) (t : Nat) :
    Enqueue mq d c t = none ↔ mq.maxSize ≤ mq.messages.length := by
  unfold Enqueue
  split
  · simp_all
  · simp_all

theorem Enqueue_eq_some (mq : MessageQueue) (d c : String) (t : Nat)
    (q : MessageQueue) (h : Enqueue mq d c t = some q) :
    q.messages = mq.messages ++ [NewQueuedMessage d c t] ∧
    q.maxSize = mq.maxSize ∧ mq.messages.length < mq.maxSize := by
  unfold Enqueue at h
  split at h
  · exact absurd h (by simp)
  · next hlt =>
    cases h
    exact ⟨rfl, rfl, by omega⟩

theorem Dequeue_snd (mq : MessageQueue) :
    (Dequeue mq).2.maxSize = mq.maxSize ∧
    (Dequeue mq).2.messages.length ≤ mq.messages.length := by
  unfold Dequeue
  cases h : mq.messages with
  | nil => simp [h]
  | cons msg rest => simp [h]

theorem applyQOp_inv (mq : MessageQueue) (op : QOp)
    (h1 : mq.maxSize = 10) (h2 : mq.messages.length ≤ 10) :
    (applyQOp mq op).maxSize = 10 ∧ (applyQOp mq op).messages.length ≤ 10 := by
  cases op with
  | enq d c t =>
    cases hE : Enqueue mq d c t with
    | none => simpa [applyQOp, hE] using ⟨h1, h2⟩
    | some q =>
      obtain ⟨hq, hmax, hlt⟩ := Enqueue_eq_some mq d c t q hE
      simp only [applyQOp, hE]
      refine ⟨by omega, ?_⟩
      rw [hq]
      simp only [List.length_append, List.length_singleton]
      omega
  | deq =>
    obtain ⟨ha, hb⟩ := Dequeue_snd mq
    simp only [applyQOp]
    exact ⟨by omega, by omega⟩

theorem runQOps_inv (ops : List QOp) :
    (runQOps ops).maxSize = 10 ∧ (runQOps ops).messages.length ≤ 10 := by
  unfold runQOps
  have key : ∀ (l : List QOp) (mq : MessageQueue),
      mq.maxSize = 10 → mq.messages.length ≤ 10 →
      (l.foldl applyQOp mq).maxSize = 10 ∧ (l.foldl applyQOp mq).messages.length ≤ 10 := by
    intro l
    induction l with
    | nil => intro mq h1 h2; exact ⟨h1, h2⟩
    | cons op rest ih =>
      intro mq h1 h2
      have h := applyQOp_inv mq op h1 h2
      exact ih (applyQOp mq op) h.1 h.2
  exact key ops (NewMessageQueue 10) rfl (by simp [NewMessageQueue])

/-- C8: after any sequence of enqueue/dequeue operations on the queue of
capacity 10, the size never exceeds 10; a further enqueue fails exactly
when the size is 10, and a successful enqueue appends at the back (FIFO),
so a failing enqueue leaves the first 10 messages intact in order. -/
theorem queue_bound (ops : List QOp) (destination content : String) (now : Nat) :
    (runQOps ops).messages.length ≤ 10 ∧
    (Enqueue (runQOps ops) destination content now = none ↔
      (runQOps ops).messages.length = 10) ∧
    (∀ q, Enqueue (runQOps ops) destination content now = some q →
      q.messages = (runQOps ops).messages
        ++ [NewQueuedMessage destination content now]) := by
  obtain ⟨hmax, hlen⟩ := runQOps_inv ops
  refine ⟨hlen, ?_, ?_⟩
  · rw [Enqueue_eq_none_iff, hmax]
    omega
  · intro q hq
    exact (Enqueue_eq_some _ _ _ _ _ hq).1

/-! ## Claims about error injection -/

/-- Counterexample to C9 as stated: a frame whose stored checksum field is
a leading-zero rendering of the correct CRC (`"01202143472"` for
`a:b:c`) passes `VerifyIntegrity`; with `p = 1` the injector replaces it
by a string-unequal draw — here the same numeric value `1202143472` in
canonical form — and the "corrupted" frame still verifies. -/
theorem introduceError_preserving_counterexample :
    VerifyIntegrity
      { «Type» := "2000", Origin := "a", Destination := "b",
        Control := "maquinanaoexiste", CRC := "01202143472", Message := "c",
        RawData := "2000;a:b:maquinanaoexiste:01202143472:c" } = true ∧
    IntroduceError
      { «Type» := "2000", Origin := "a", Destination := "b",
        Control := "maquinanaoexiste", CRC := "01202143472", Message := "c",
        RawData := "2000;a:b:maquinanaoexiste:01202143472:c" } 1 0 [1202143472] =
      some ({ «Type» := "2000", Origin := "a", Destination := "b",
              Control := "maquinanaoexiste", CRC := "1202143472", Message := "c",
              RawData := "2000;a:b:maquinanaoexiste:1202143472:c" }, true) ∧
    VerifyIntegrity
      { «Type» := "2000", Origin := "a", Destination := "b",
        Control := "maquinanaoexiste", CRC := "1202143472", Message := "c",
        RawData := "2000;a:b:maquinanaoexiste:1202143472:c" } = true := by
  refine ⟨by decide, ?_, by decide⟩
  show (if (0:ℚ) < 1 then _ else _) = _
  rw [if_pos (by norm_num)]
  decide

/-- C9 (amended): with `p = 0`, `IntroduceError` deterministically returns
the frame unchanged with `introduced = false`; with `p = 1`, whenever the
draw stream yields a replacement (the Go loop terminates) an error is
introduced, and provided the frame's checksum field is the canonical
decimal rendering of the CRC-32 of its own fields — as `CreateDataPacket`
produces it — the resulting frame fails `VerifyIntegrity`. -/
theorem introduceError_flips_verify (dm : DataMessage) (u : ℚ) (draws : List Nat)
    (hu0 : 0 ≤ u) (hu1 : u < 1) :
    IntroduceError dm 0 u draws = some (dm, false) ∧
    (dm.CRC = CalculateCRC32String
        (CreateDataForCRC dm.Origin dm.Destination dm.Message) →
     (∀ x ∈ draws, x < 2 ^ 32) →
     ∀ dm' b, IntroduceError dm 1 u draws = some (dm', b) →
       b = true ∧ VerifyIntegrity dm' = false) := by
  constructor
  · unfold IntroduceError
    rw [if_neg (not_lt.mpr hu0)]
  · intro hcanon hdraws dm' b h
    unfold IntroduceError at h
    rw [if_pos hu1] at h
    cases hf : draws.find? (fun d => formatUint d != dm.CRC) with
    | none =>
      rw [hf] at h
      exact absurd h (by simp)
    | some d =>
      rw [hf] at h
      injection h with h2
      cases h2
      refine ⟨rfl, ?_⟩
      have hd32 : d < 2 ^ 32 := hdraws d (List.mem_of_find?_eq_some hf)
      have hne : formatUint d ≠ dm.CRC := by
        have := List.find?_some hf
        simpa using this
      show VerifyCRC32String
        (CreateDataForCRC dm.Origin dm.Destination dm.Message) (formatUint d) = false
      unfold VerifyCRC32String
      rw [ParseUint32_formatUint hd32]
      unfold VerifyCRC32
      rw [beq_eq_false_iff_ne]
      intro hEq
      apply hne
      rw [hcanon]
      unfold CalculateCRC32String
      rw [hEq]

set_option maxRecDepth 8192 in
/-- Witness for the amended C9 at `CreateDataPacket "Alice" "Bob" "hi"`,
`u = 0`, draw stream `[0]`. -/
theorem introduceError_flips_verify_witness :
    IntroduceError (CreateDataPacket "Alice" "Bob" "hi") 0 0 [0] =
      some (CreateDataPacket "Alice" "Bob" "hi", false) ∧
    (true = true ∧
     VerifyIntegrity
       { CreateDataPacket "Alice" "Bob" "hi" with
         CRC := formatUint 0
         RawData := rawFormat "Alice" "Bob" ControlMachineNotExists
           (formatUint 0) "hi" } = false) :=
  ⟨(introduceError_flips_verify (CreateDataPacket "Alice" "Bob" "hi") 0 [0]
      (le_refl 0) (by norm_num)).1,
   (introduceError_flips_verify (CreateDataPacket "Alice" "Bob" "hi") 0 [0]
      (le_refl 0) (by norm_num)).2 rfl (by decide) _ true (by decide)⟩

/-! ## Claims about the receive-side handlers -/

set_option maxRecDepth 8192 in
/-- Counterexample to C1 as stated: on a checksum failure the
frames-received counter IS incremented — `handleMessageForThisMachine`
bumps `MessagesReceived` unconditionally on entry, before verification. -/
theorem nak_bumps_frames_received_counterexample :
    VerifyIntegrity
      { «Type» := "2000", Origin := "Bob", Destination := "Alice",
        Control := "maquinanaoexiste", CRC := "0", Message := "oi",
        RawData := "2000;Bob:Alice:maquinanaoexiste:0:oi" } = false ∧
    (handleDataPacket (NewMachine "Alice")
      { «Type» := "2000", Origin := "Bob", Destination := "Alice",
        Control := "maquinanaoexiste", CRC := "0", Message := "oi",
        RawData := "2000;Bob:Alice:maquinanaoexiste:0:oi" }).1.messagesReceived
      ≠ (NewMachine "Alice").messagesReceived := by
  decide

/-- C1 (amended): for a non-broadcast data frame addressed to this node
with a foreign origin — if the checksum verifies, control is rewritten to
`ACK` and frames-received is incremented; if not, control is rewritten to
`NAK`, integrity-errors is incremented AND frames-received is also
incremented (the code counts every frame addressed to the node before
verifying).  In both cases exactly
the rewritten frame is emitted, and the token flag, awaiting flag, queue
and in-flight frame are unchanged. -/
theorem unicast_receive_ack_nak (m : MachineState) (dm : DataMessage)
    (hdest : dm.Destination = m.machineName)
    (hnb : dm.Destination ≠ "TODOS")
    (ho : dm.Origin ≠ m.machineName) :
    handleDataPacket m dm =
      if VerifyIntegrity dm then
        ({ m with messagesReceived := m.messagesReceived + 1 },
          [(SetControl dm ControlACK).RawData])
      else
        ({ m with messagesReceived := m.messagesReceived + 1,
                  errorsDetected := m.errorsDetected + 1 },
          [(SetControl dm ControlNAK).RawData]) := by
  unfold handleDataPacket
  rw [if_pos hdest]
  unfold handleMessageForThisMachine
  dsimp only
  rw [if_neg hnb]

set_option maxRecDepth 8192 in
/-- Witness for the amended C1 at `NewMachine "Alice"` and the valid frame
`CreateDataPacket "Bob" "Alice" "oi"`. -/
theorem unicast_receive_ack_nak_witness :
    (CreateDataPacket "Bob" "Alice" "oi").Destination
        = (NewMachine "Alice").machineName ∧
    (CreateDataPacket "Bob" "Alice" "oi").Destination ≠ "TODOS" ∧
    (CreateDataPacket "Bob" "Alice" "oi").Origin ≠ (NewMachine "Alice").machineName ∧
    handleDataPacket (NewMachine "Alice") (CreateDataPacket "Bob" "Alice" "oi") =
      if VerifyIntegrity (CreateDataPacket "Bob" "Alice" "oi") then
        ({ NewMachine "Alice" with
            messagesReceived := (NewMachine "Alice").messagesReceived + 1 },
          [(SetControl (CreateDataPacket "Bob" "Alice" "oi") ControlACK).RawData])
      else
        ({ NewMachine "Alice" with
            messagesReceived := (NewMachine "Alice").messagesReceived + 1,
            errorsDetected := (NewMachine "Alice").errorsDetected + 1 },
          [(SetControl (CreateDataPacket "Bob" "Alice" "oi") ControlNAK).RawData]) :=
  ⟨rfl, by decide, by decide,
    unicast_receive_ack_nak (NewMachine "Alice") (CreateDataPacket "Bob" "Alice" "oi")
      rfl (by decide) (by decide)⟩

set_option maxRecDepth 8192 in
/-- Counterexample to C2 as stated: when a node's own broadcast frame
returns, its frames-received counter IS incremented (the unconditional
bump in `handleMessageForThisMachine` runs before the origin check). -/
theorem broadcast_origin_bumps_received_counterexample :
    (CreateDataPacket "Alice" "TODOS" "hello").Destination = "TODOS" ∧
    (CreateDataPacket "Alice" "TODOS" "hello").Origin
      = (NewMachine "Alice").machineName ∧
    (handleDataPacket (NewMachine "Alice")
        (CreateDataPacket "Alice" "TODOS" "hello")).1.messagesReceived
      ≠ (NewMachine "Alice").messagesReceived := by
  refine ⟨rfl, rfl, ?_⟩
  decide

/-- C2 (amended): a broadcast frame returning to its origin removes the
queue head, clears the awaiting state and the in-flight frame, drops the
token flag and emits a token downstream — and the origin's own
frames-received counter is ALSO incremented, since the code counts every
broadcast frame it receives, its own included. -/
theorem broadcast_cycle_complete (m : MachineState) (dm : DataMessage)
    (hdest : dm.Destination = "TODOS")
    (ho : dm.Origin = m.machineName) :
    handleDataPacket m dm =
      ({ m with
          messagesReceived := m.messagesReceived + 1
          waitingForData := false
          currentDataMsg := none
          queue := (RemoveFirstMessage m.queue).2
          hasToken := false }, [CreateTokenPacket]) := by
  have key : handleMessageForThisMachine m dm =
      ({ m with
          messagesReceived := m.messagesReceived + 1
          waitingForData := false
          currentDataMsg := none
          queue := (RemoveFirstMessage m.queue).2
          hasToken := false }, [CreateTokenPacket]) := by
    unfold handleMessageForThisMachine
    dsimp only
    rw [if_pos hdest]
    split
    · rfl
    · next hno => exact absurd ho hno
  unfold handleDataPacket
  rw [hdest]
  split
  · exact key
  · rw [if_pos rfl]
    exact key

set_option maxRecDepth 8192 in
/-- Witness for the amended C2 at `NewMachine "Alice"` (empty queue) and
the returning broadcast `CreateDataPacket "Alice" "TODOS" "hello"`. -/
theorem broadcast_cycle_complete_witness :
    (CreateDataPacket "Alice" "TODOS" "hello").Destination = "TODOS" ∧
    (CreateDataPacket "Alice" "TODOS" "hello").Origin
      = (NewMachine "Alice").machineName ∧
    handleDataPacket (NewMachine "Alice") (CreateDataPacket "Alice" "TODOS" "hello") =
      ({ NewMachine "Alice" with
          messagesReceived := (NewMachine "Alice").messagesReceived + 1
          waitingForData := false
          currentDataMsg := none
          queue := (RemoveFirstMessage (NewMachine "Alice").queue).2
          hasToken := false }, [CreateTokenPacket]) :=
  ⟨rfl, rfl,
    broadcast_cycle_complete (NewMachine "Alice")
      (CreateDataPacket "Alice" "TODOS" "hello") rfl rfl⟩

/-- C3: a node in the awaiting state receiving its own returned
non-broadcast frame — `ACK` drops the queue head, `NAK` keeps the head and
increments its retry counter, `maquinanaoexiste` drops the head; in each
case the awaiting state and in-flight frame are cleared, the token flag
becomes false and a token frame is emitted downstream. -/
theorem returned_frame_outcomes (m : MachineState) (dm : DataMessage)
    (hw : m.waitingForData = true)
    (hcur : m.currentDataMsg ≠ none)
    (ho : dm.Origin = m.machineName)
    (hnb : dm.Destination ≠ "TODOS")
    (hnd : dm.Destination ≠ m.machineName) :
    (dm.Control = ControlACK →
      handleDataPacket m dm =
        ({ m with
            waitingForData := false
            currentDataMsg := none
            queue := (RemoveFirstMessage m.queue).2
            hasToken := false },
          [CreateTokenPacket])) ∧
    (dm.Control = ControlNAK →
      handleDataPacket m dm =
        ({ m with
            waitingForData := false
            currentDataMsg := none
            queue := IncrementRetries m.queue
            hasToken := false },
          [CreateTokenPacket])) ∧
    (dm.Control = ControlMachineNotExists →
      handleDataPacket m dm =
        ({ m with
            waitingForData := false
            currentDataMsg := none
            queue := (RemoveFirstMessage m.queue).2
            hasToken := false },
          [CreateTokenPacket])) := by
  have hdisp : handleDataPacket m dm = handleReturnedMessage m dm := by
    unfold handleDataPacket
    rw [if_neg hnd, if_neg hnb, if_pos ho]
  have hnwait : ¬(m.waitingForData = false ∨ m.currentDataMsg = none) := by
    simp [hw, hcur]
  refine ⟨fun hctl => ?_, fun hctl => ?_, fun hctl => ?_⟩
  · rw [hdisp]
    unfold handleReturnedMessage
    rw [if_neg hnb, if_neg hnwait]
    dsimp only
    rw [if_pos hctl]
    rfl
  · have hne1 : dm.Control ≠ ControlACK := by rw [hctl]; decide
    rw [hdisp]
    unfold handleReturnedMessage
    rw [if_neg hnb, if_neg hnwait]
    dsimp only
    rw [if_neg hne1, if_pos hctl]
    rfl
  · have hne1 : dm.Control ≠ ControlACK := by rw [hctl]; decide
    have hne2 : dm.Control ≠ ControlNAK := by rw [hctl]; decide
    rw [hdisp]
    unfold handleReturnedMessage
    rw [if_neg hnb, if_neg hnwait]
    dsimp only
    rw [if_neg hne1, if_neg hne2, if_pos hctl]
    rfl

set_option maxRecDepth 8192 in
/-- Witness for C3: an awaiting node with one queued message receives its
own returned frame with control `ACK` and drops the head. -/
theorem returned_frame_outcomes_witness :
    (SetControl (CreateDataPacket "Alice" "Bob" "hi") ControlACK).Control
      = ControlACK ∧
    handleDataPacket
      { machineName := "Alice", errorProbability := 1 / 10,
        queue := { messages := [NewQueuedMessage "Bob" "hi" 0], maxSize := 10 },
        hasToken := true, waitingForData := true,
        currentDataMsg := some (CreateDataPacket "Alice" "Bob" "hi"),
        tokensProcessed := 1, messagesSent := 1, messagesReceived := 0,
        errorsDetected := 0 }
      (SetControl (CreateDataPacket "Alice" "Bob" "hi") ControlACK) =
      ({ machineName := "Alice", errorProbability := 1 / 10,
         queue := { messages := [], maxSize := 10 },
         hasToken := false, waitingForData := false, currentDataMsg := none,
         tokensProcessed := 1, messagesSent := 1, messagesReceived := 0,
         errorsDetected := 0 }, [CreateTokenPacket]) :=
  ⟨rfl,
    (returned_frame_outcomes
      { machineName := "Alice", errorProbability := 1 / 10,
        queue := { messages := [NewQueuedMessage "Bob" "hi" 0], maxSize := 10 },
        hasToken := true, waitingForData := true,
        currentDataMsg := some (CreateDataPacket "Alice" "Bob" "hi"),
        tokensProcessed := 1, messagesSent := 1, messagesReceived := 0,
        errorsDetected := 0 }
      (SetControl (CreateDataPacket "Alice" "Bob" "hi") ControlACK)
      rfl (by decide) rfl (by decide) (by decide)).1 rfl⟩

/-! ## The single-in-flight invariant (C4) -/

/-- The in-flight invariant: the awaiting flag and the in-flight frame are
set and cleared together, and while set the queue head's destination and
payload equal the frame's. -/
def InFlightInv (m : MachineState) : Prop :=
  (m.waitingForData = true →
    ∃ f, m.currentDataMsg = some f ∧
      ∃ hd tl, m.queue.messages = hd :: tl ∧
        hd.Destination = f.Destination ∧ hd.Content = f.Message) ∧
  (m.waitingForData = false → m.currentDataMsg = none)

/-- A state whose awaiting flag is clear and in-flight frame empty
satisfies the invariant. -/
theorem InFlightInv_cleared (m : MachineState) (hw : m.waitingForData = false)
    (hc : m.currentDataMsg = none) : InFlightInv m :=
  ⟨fun h => absurd (hw.symm.trans h) (by decide), fun _ => hc⟩

/-- The invariant only reads the awaiting flag, the in-flight frame and
the queue contents. -/
theorem InFlightInv_congr (m' m : MachineState)
    (hw : m'.waitingForData = m.waitingForData)
    (hc : m'.currentDataMsg = m.currentDataMsg)
    (hq : m'.queue.messages = m.queue.messages)
    (hinv : InFlightInv m) : InFlightInv m' := by
  obtain ⟨h1, h2⟩ := hinv
  constructor
  · intro h
    rw [hw] at h
    obtain ⟨f, hf, hd, tl, hqm, hdd, hcc⟩ := h1 h
    exact ⟨f, by rw [hc, hf], hd, tl, by rw [hq, hqm], hdd, hcc⟩
  · intro h
    rw [hw] at h
    rw [hc]
    exact h2 h

/-- A freshly transmitted head satisfies the invariant. -/
theorem InFlightInv_transmit (m : MachineState) (dm2 : DataMessage) (k : Nat)
    (qm : QueuedMessage) (tl : List QueuedMessage)
    (hq : m.queue.messages = qm :: tl)
    (hdd : dm2.Destination = qm.Destination) (hcc : dm2.Message = qm.Content) :
    InFlightInv { m with waitingForData := true, currentDataMsg := some dm2,
                         messagesSent := k } := by
  constructor
  · intro _
    exact ⟨dm2, rfl, qm, tl, hq, hdd.symm, hcc.symm⟩
  · intro hfalse
    simp at hfalse

theorem Peek_eq_some (mq : MessageQueue) (qm : QueuedMessage)
    (h : Peek mq = some qm) : ∃ tl, mq.messages = qm :: tl := by
  unfold Peek at h
  cases hm : mq.messages with
  | nil => rw [hm] at h; exact absurd h (by simp)
  | cons a l =>
    rw [hm] at h
    have ha : a = qm := by simpa using h
    exact ⟨l, by rw [ha]⟩

/-- `IntroduceError` only rewrites the checksum and the raw string. -/
theorem IntroduceError_fields (dm : DataMessage) (p u : ℚ) (draws : List Nat)
    (dm' : DataMessage) (b : Bool)
    (h : IntroduceError dm p u draws = some (dm', b)) :
    dm'.Destination = dm.Destination ∧ dm'.Message = dm.Message := by
  unfold IntroduceError at h
  split at h
  · cases hf : draws.find? (fun d => formatUint d != dm.CRC) with
    | none => rw [hf] at h; exact absurd h (by simp)
    | some d =>
      rw [hf] at h
      injection h with h2
      injection h2 with h3 h4
      rw [← h3]
      exact ⟨rfl, rfl⟩
  · injection h with h2
    injection h2 with h3 h4
    rw [← h3]
    exact ⟨rfl, rfl⟩

theorem handleMessageForThisMachine_inv (m : MachineState) (dm : DataMessage)
    (hinv : InFlightInv m) : InFlightInv (handleMessageForThisMachine m dm).1 := by
  unfold handleMessageForThisMachine forwardMessage passToken
  dsimp only
  split
  · split
    · exact InFlightInv_cleared _ rfl rfl
    · exact InFlightInv_congr _ m rfl rfl rfl hinv
  · split
    · exact InFlightInv_congr _ m rfl rfl rfl hinv
    · exact InFlightInv_congr _ m rfl rfl rfl hinv

theorem handleReturnedMessage_inv (m : MachineState) (dm : DataMessage)
    (hinv : InFlightInv m) : InFlightInv (handleReturnedMessage m dm).1 := by
  unfold handleReturnedMessage
  dsimp only
  split
  · exact InFlightInv_cleared _ rfl rfl
  · split
    · exact hinv
    · split
      · exact InFlightInv_cleared _ rfl rfl
      · split
        · exact InFlightInv_cleared _ rfl rfl
        · split
          · exact InFlightInv_cleared _ rfl rfl
          · exact InFlightInv_cleared _ rfl rfl

theorem handleDataPacket_inv (m : MachineState) (dm : DataMessage)
    (hinv : InFlightInv m) : InFlightInv (handleDataPacket m dm).1 := by
  unfold handleDataPacket
  split
  · exact handleMessageForThisMachine_inv m dm hinv
  · split
    · exact handleMessageForThisMachine_inv m dm hinv
    · split
      · exact handleReturnedMessage_inv m dm hinv
      · exact hinv

theorem processToken_inv (m : MachineState) (u : ℚ) (draws : List Nat)
    (m' : MachineState) (out : List String)
    (h : processToken m u draws = some (m', out)) (hinv : InFlightInv m) :
    InFlightInv m' := by
  unfold processToken at h
  split at h
  · injection h with h2
    injection h2 with h3 h4
    exact h3 ▸ hinv
  · cases hp : Peek m.queue with
    | none =>
      rw [hp] at h
      injection h with h2
      have h3 : (passToken m).1 = m' := congrArg Prod.fst h2
      exact h3 ▸ InFlightInv_congr (passToken m).1 m rfl rfl rfl hinv
    | some qm =>
      rw [hp] at h
      dsimp only at h
      obtain ⟨tl, hq⟩ := Peek_eq_some _ _ hp
      by_cases hT : qm.Destination = "TODOS"
      · rw [if_pos hT] at h
        dsimp only at h
        injection h with h2
        injection h2 with h3 h4
        subst h3
        exact InFlightInv_transmit m _ _ qm tl hq rfl rfl
      · rw [if_neg hT] at h
        cases hIE : IntroduceError
            (CreateDataPacket m.machineName qm.Destination qm.Content)
            m.errorProbability u draws with
        | none =>
          rw [hIE] at h
          exact absurd h (by simp)
        | some pr =>
          obtain ⟨dm2, b⟩ := pr
          rw [hIE] at h
          dsimp only at h
          injection h with h2
          injection h2 with h3 h4
          subst h3
          obtain ⟨hdd, hcc⟩ := IntroduceError_fields _ _ _ _ _ _ hIE
          exact InFlightInv_transmit m _ _ qm tl hq hdd hcc

theorem step_inv (m m' : MachineState) (e : Event) (out : List String)
    (h : step m e = some (m', out)) (hinv : InFlightInv m) : InFlightInv m' := by
  cases e with
  | enqueueMsg d c t =>
    simp only [step] at h
    injection h with h2
    injection h2 with h3 h4
    subst h3
    cases hE : Enqueue m.queue d c t with
    | none =>
      exact hinv
    | some q =>
      show InFlightInv { m with queue := q }
      obtain ⟨hq, hmax, hlt⟩ := Enqueue_eq_some _ _ _ _ _ hE
      obtain ⟨h1, h2'⟩ := hinv
      constructor
      · intro hw
        obtain ⟨f, hf, hd, tl, hqm, hdd, hcc⟩ := h1 hw
        exact ⟨f, hf, hd, tl ++ [NewQueuedMessage d c t], by rw [hq, hqm]; rfl,
          hdd, hcc⟩
      · exact h2'
  | recv data =>
    simp only [step] at h
    injection h with h2
    have h3 := congrArg Prod.fst h2
    subst h3
    unfold handleReceivedData
    split
    · exact InFlightInv_congr _ m rfl rfl rfl hinv
    · cases hP : ParseDataPacket data with
      | none => exact hinv
      | some dmsg => exact handleDataPacket_inv m dmsg hinv
  | holdExpire u draws =>
    simp only [step] at h
    exact processToken_inv m u draws m' out h hinv

/-- C4: in every state reachable by engine transitions (enqueue, token or
data-frame receipt, hold expiry), the awaiting flag implies the in-flight
frame is present and the queue head's destination and payload equal the
frame's; the flag and the frame are set together and cleared together. -/
theorem inflight_invariant (name : String) (m : MachineState)
    (h : Reachable name m) : InFlightInv m := by
  induction h with
  | init => exact InFlightInv_cleared _ rfl rfl
  | next hr hs ih => exact step_inv _ _ _ _ hs ih

set_option maxRecDepth 8192 in
/-- Witness for C4: the state reached from `NewMachine "Alice"` by
enqueueing `(Bob, hi)`, receiving the token and letting the hold expire
(draw `u = 1`, no replacement draws needed) is reachable and awaiting. -/
theorem inflight_invariant_witness :
    InFlightInv
      { machineName := "Alice", errorProbability := mkRat 1 10,
        queue := { messages := [NewQueuedMessage "Bob" "hi" 0], maxSize := 10 },
        hasToken := true, waitingForData := true,
        currentDataMsg := some (CreateDataPacket "Alice" "Bob" "hi"),
        tokensProcessed := 1, messagesSent := 1, messagesReceived := 0,
        errorsDetected := 0 } := by
  have h1 : step (NewMachine "Alice") (Event.enqueueMsg "Bob" "hi" 0) =
      some ({ machineName := "Alice", errorProbability := mkRat 1 10,
              queue := { messages := [NewQueuedMessage "Bob" "hi" 0], maxSize := 10 },
              hasToken := false, waitingForData := false, currentDataMsg := none,
              tokensProcessed := 0, messagesSent := 0, messagesReceived := 0,
              errorsDetected := 0 }, []) := by decide
  have h2 : step
      { machineName := "Alice", errorProbability := mkRat 1 10,
        queue := { messages := [NewQueuedMessage "Bob" "hi" 0], maxSize := 10 },
        hasToken := false, waitingForData := false, currentDataMsg := none,
        tokensProcessed := 0, messagesSent := 0, messagesReceived := 0,
        errorsDetected := 0 } (Event.recv "1000") =
      some ({ machineName := "Alice", errorProbability := mkRat 1 10,
              queue := { messages := [NewQueuedMessage "Bob" "hi" 0], maxSize := 10 },
              hasToken := true, waitingForData := false, currentDataMsg := none,
              tokensProcessed := 1, messagesSent := 0, messagesReceived := 0,
              errorsDetected := 0 }, []) := by decide
  have h3 : step
      { machineName := "Alice", errorProbability := mkRat 1 10,
        queue := { messages := [NewQueuedMessage "Bob" "hi" 0], maxSize := 10 },
        hasToken := true, waitingForData := false, currentDataMsg := none,
        tokensProcessed := 1, messagesSent := 0, messagesReceived := 0,
        errorsDetected := 0 } (Event.holdExpire 1 []) =
      some ({ machineName := "Alice", errorProbability := mkRat 1 10,
              queue := { messages := [NewQueuedMessage "Bob" "hi" 0], maxSize := 10 },
              hasToken := true, waitingForData := true,
              currentDataMsg := some (CreateDataPacket "Alice" "Bob" "hi"),
              tokensProcessed := 1, messagesSent := 1, messagesReceived := 0,
              errorsDetected := 0 },
            [(CreateDataPacket "Alice" "Bob" "hi").RawData]) := by decide
  exact inflight_invariant "Alice" _
    (Reachable.next (Reachable.next (Reachable.next Reachable.init h1) h2) h3)

end RingNet
